import Mathlib

/-!
Shallow embedding of the storyboard publishing app (src/app.py).

Python strings are modelled as Lean `String` / `List Char`; `str.strip`
as trimming of ASCII whitespace; dict lookup as association-list lookup
returning `Option` (where `none` models a `KeyError`); functions that can
raise return `Except`.  The single random component (the ten characters
drawn by `random.choices`) is passed in explicitly as a parameter.
-/

/-- ASCII whitespace, the characters stripped by Python `str.strip()`
on the inputs this app sees (space, tab, newline, carriage return,
vertical tab, form feed). -/
def isPySpace (c : Char) : Bool :=
  c = ' ' || c = '\t' || c = '\n' || c = '\r' || c.toNat = 11 || c.toNat = 12

/-- Python `str.strip()` on a character list. -/
def pyStripL (cs : List Char) : List Char :=
  ((cs.dropWhile isPySpace).reverse.dropWhile isPySpace).reverse

/-- Python `str.strip()`. -/
def pyStrip (s : String) : String :=
  (pyStripL s.toList).asString

/-- Python `str.lower()` restricted to ASCII (the only case-mapping the
slug pipeline can meet: every non-ASCII character is removed by the
subsequent filter in `generate_slug_and_urls`). -/
def pyLowerChar (c : Char) : Char :=
  if 65 ≤ c.toNat ∧ c.toNat ≤ 90 then Char.ofNat (c.toNat + 32) else c

/-- One character of `title.lower().replace(" ", "-").replace("_", "-")`
from `generate_slug_and_urls` (src/app.py lines 60-62): lowercase first,
then turn a space (32) or underscore (95) into a hyphen. -/
def slugMapChar (c : Char) : Char :=
  if (pyLowerChar c).toNat = 32 || (pyLowerChar c).toNat = 95 then '-' else pyLowerChar c

/-- Membership in `string.ascii_lowercase + string.digits + '-'`
(src/app.py line 63): a-z (97-122), 0-9 (48-57), or hyphen (45). -/
def allowedSlugChar (c : Char) : Bool :=
  (97 ≤ c.toNat && c.toNat ≤ 122) || (48 ≤ c.toNat && c.toNat ≤ 57) || c.toNat = 45

/-- Python `str.strip('-')`: drop leading hyphens, then trailing ones. -/
def stripHyphens (cs : List Char) : List Char :=
  ((cs.reverse.dropWhile (fun c => c == '-')).reverse).dropWhile (fun c => c == '-')

/-- The slug computation of `generate_slug_and_urls` (src/app.py
lines 60-64): lowercase, map space/underscore to hyphen, keep only
a-z, 0-9 and hyphen, strip edge hyphens. -/
def slugCore (cs : List Char) : List Char :=
  stripHyphens ((cs.map slugMapChar).filter allowedSlugChar)

/-- String-level slug of a title. -/
def slugOf (title : String) : String :=
  (slugCore title.toList).asString

/-- `generate_slug_and_urls` (src/app.py lines 57-72).  `rc` stands for
the ten characters drawn by `random.choices(string.ascii_letters +
string.digits + '_-', k=10)`; the `ValueError` raised on an empty title
is modelled by `Except.error`. -/
def generate_slug_and_urls (title : String) (rc : List Char) :
    Except String (String × String × String × String) :=
  if title = "" then Except.error "Invalid title"
  else
    let slug := slugOf title
    let nano := rc.asString ++ "_G"
    let slug_nano := slug ++ "_" ++ nano
    Except.ok (nano, slug_nano,
      "https://suvichaar.org/stories/" ++ slug_nano,
      "https://stories.suvichaar.org/" ++ slug_nano ++ ".html")

/-- The fixed category table of the submit handler (src/app.py
lines 297-300).  A Python dict with string keys; indexing with a key
that is absent raises `KeyError`, modelled below by `List.lookup`
returning `none`. -/
def category_mapping : List (String × Nat) :=
  [("Art", 1), ("Travel", 2), ("Entertainment", 3), ("Literature", 4), ("Books", 5),
   ("Sports", 6), ("History", 7), ("Culture", 8), ("Wildlife", 9), ("Spiritual", 10),
   ("Food", 11)]

/-- JSON values as they occur in `metadata_dict`: strings, integers and
arrays of strings. -/
inductive JVal where
  | jstr (s : String)
  | jnum (n : Nat)
  | jarr (xs : List String)
deriving DecidableEq

/-- The `metadata_dict` literal of src/app.py lines 388-402, keys in
source order. -/
def metadata_dict (story_title : String) (filternumber : Nat)
    (filter_tags_list : List String)
    (nano canurl canurl1 slug_nano cover_image_url meta_keywords
     meta_description language : String) : List (String × JVal) :=
  [("story_title", JVal.jstr story_title),
   ("categories", JVal.jnum filternumber),
   ("filterTags", JVal.jarr filter_tags_list),
   ("story_uid", JVal.jstr nano),
   ("story_link", JVal.jstr canurl),
   ("storyhtmlurl", JVal.jstr canurl1),
   ("urlslug", JVal.jstr slug_nano),
   ("cover_image_link", JVal.jstr cover_image_url),
   ("publisher_id", JVal.jnum 1),
   ("story_logo_link", JVal.jstr "https://media.suvichaar.org/filters:resize/96x96/media/brandasset/suvichaariconblack.png"),
   ("keywords", JVal.jstr meta_keywords),
   ("metadescription", JVal.jstr meta_description),
   ("lang", JVal.jstr language)]

/-- The two `zip_file.writestr` calls of src/app.py lines 420-422: the
archive holds exactly these two entries, in this order. -/
def zipEntries (slug_nano html_template json_str : String) : List (String × String) :=
  [(slug_nano ++ ".html", html_template),
   (slug_nano ++ "_metadata.json", json_str)]

/-- Case-insensitive character comparison, as `re.IGNORECASE` compares
the ASCII letters of the fence marker. -/
def ciEq (a b : Char) : Bool :=
  pyLowerChar a == pyLowerChar b

/-- Case-insensitive prefix test for the literal part of a pattern. -/
def ciIsPrefixOfL : List Char → List Char → Bool
  | [], _ => true
  | _ :: _, [] => false
  | a :: as, b :: bs => ciEq a b && ciIsPrefixOfL as bs

/-- Close-brace search for the lazy `\x7b.*?\x7d` group of the fenced
pattern: the smallest index holding a close brace that is followed,
after optional whitespace, by a closing fence. -/
def findFenceClose : List Char → Option Nat
  | [] => none
  | c :: cs =>
    if c = '\x7d' && "```".toList.isPrefixOf (cs.dropWhile isPySpace) then some 0
    else (findFenceClose cs).map (· + 1)

/-- One attempt of the fenced-block pattern at the current position:
the literal fence marker (case-insensitive), optional whitespace, an
open brace, then the lazily matched body up to the first viable close
brace.  Returns the captured group. -/
def tryFenceAt (cs : List Char) : Option (List Char) :=
  if ciIsPrefixOfL "```json".toList cs then
    match (cs.drop 7).dropWhile isPySpace with
    | '\x7b' :: inner =>
      (findFenceClose inner).map (fun j => '\x7b' :: (inner.take j ++ ['\x7d']))
    | _ => none
  else none

/-- Leftmost match of the fenced pattern of src/app.py line 81
(`re.search` tries every start position in order). -/
def findFenced : List Char → Option (List Char)
  | [] => none
  | c :: cs =>
    match tryFenceAt (c :: cs) with
    | some g => some g
    | none => findFenced cs

/-- Exceptions `extract_json_block` can raise: the explicit
`ValueError` on empty input, and the `re.error` that CPython raises
when compiling a pattern it does not support. -/
inductive PyError where
  | valueError (msg : String)
  | reError (msg : String)
deriving DecidableEq

/-- `extract_json_block` (src/app.py lines 74-89).  The second branch
compiles the pattern `(\x7b(?:[^\x7b\x7d]|(?1))*\x7d)`; the `(?1)`
recursion extension is not supported by the `re` module that the file
imports, so for any non-empty input that the fenced pattern does not
match, CPython raises `re.error("unknown extension ?1")` instead of
searching; the final whole-text branch is unreachable. -/
def extract_json_block (text : String) : Except PyError String :=
  if text = "" then Except.error (PyError.valueError "Empty generation output")
  else
    match findFenced text.toList with
    | some g => Except.ok (pyStrip g.asString)
    | none => Except.error (PyError.reError "unknown extension ?1")

/-- All indices (in scan order) at which `nd` occurs in `hay`. -/
def occIdx (nd hay : List Char) : List Nat :=
  (List.range (hay.length + 1)).filter (fun i => nd.isPrefixOf (hay.drop i))

/-- Python `str.find`: index of the leftmost occurrence, or `none`
for the sentinel -1. -/
def pyFind (nd hay : List Char) : Option Nat :=
  (occIdx nd hay).head?

/-- Python `str.rfind`: index of the rightmost occurrence, or `none`
for the sentinel -1. -/
def pyRFind (nd hay : List Char) : Option Nat :=
  (occIdx nd hay).getLast?

/-- Python substring membership (`nd in hay`). -/
def pyContains (hay nd : List Char) : Bool :=
  (List.range (hay.length + 1)).any (fun i => nd.isPrefixOf (hay.drop i))

/-- The opening tag literal of src/app.py line 356. -/
def ampOpenLit : List Char := "<amp-story-page".toList

/-- The closing tag literal of src/app.py line 357. -/
def ampCloseLit : List Char := "</amp-story-page>".toList

/-- The amp-story-page extraction of src/app.py lines 356-361:
`find` of the opening literal, `rfind` of the closing literal, and the
slice `raw_html[start : end + len(close)]` when both are found.  The
boolean records whether the missing-block warning branch ran. -/
def extractAmpStory (raw : List Char) : List Char × Bool :=
  match pyFind ampOpenLit raw, pyRFind ampCloseLit raw with
  | some s, some e => ((raw.take (e + ampCloseLit.length)).drop s, false)
  | _, _ => ([], true)

/-- Word character for the `\b` boundary of the `<amp-story\b[^>]*>`
search (ASCII letters, digits, underscore). -/
def isWordChar (c : Char) : Bool :=
  (65 ≤ c.toNat && c.toNat ≤ 90) || (97 ≤ c.toNat && c.toNat ≤ 122) ||
  (48 ≤ c.toNat && c.toNat ≤ 57) || c.toNat = 95

/-- Match attempt of `<amp-story\b[^>]*>` at the current position
(src/app.py line 373): literal, word boundary, a greedy run of
non-`>` characters, then `>`.  Returns the match length. -/
def matchAmpOpenLen (cs : List Char) : Option Nat :=
  if "<amp-story".toList.isPrefixOf cs then
    let rest := cs.drop 10
    let bOK := match rest.head? with
      | none => true
      | some c => !(isWordChar c)
    if bOK then
      let run := rest.takeWhile (fun c => c ≠ '>')
      match (rest.drop run.length).head? with
      | some _ => some (10 + run.length + 1)
      | none => none
    else none
  else none

/-- End position of the leftmost `<amp-story\b[^>]*>` match. -/
def findAmpOpenEnd : List Char → Nat → Option Nat
  | [], _ => none
  | c :: cs, i =>
    match matchAmpOpenLen (c :: cs) with
    | some len => some (i + len)
    | none => findAmpOpenEnd cs (i + 1)

/-- The fixed analytics marker literal of src/app.py line 374. -/
def analyticsTag : List Char :=
  "<amp-story-auto-analytics gtag-id=\"G-2D5GXVRK1E\" class=\"i-amphtml-layout-container\" i-amphtml-layout=\"container\"></amp-story-auto-analytics>".toList

/-- The story-page insertion of src/app.py lines 372-385: only a
non-empty extracted fragment is considered; it is inserted after the
end of the opening `<amp-story ...>` tag provided the analytics marker
is also present; otherwise a warning is recorded.  The boolean records
whether the could-not-find-insertion-points warning ran. -/
def spliceAmpStory (tmpl extracted : List Char) : List Char × Bool :=
  if extracted ≠ [] then
    match findAmpOpenEnd tmpl 0 with
    | some p =>
      if pyContains tmpl analyticsTag then
        (tmpl.take p ++ "\n\n".toList ++ extracted ++ "\n\n".toList ++ tmpl.drop p, false)
      else (tmpl, true)
    | none => (tmpl, true)
  else (tmpl, false)

/-- The session fields involved in the title-change handler
(src/app.py lines 154-161). -/
structure SessionState where
  last_title : String
  meta_description : String
  meta_keywords : String
  generated_filter_tags : String
deriving DecidableEq

/-- The normalized result of `generate_metadata` (src/app.py
lines 144-148). -/
structure MetaOut where
  meta_description : String
  meta_keywords_csv : String
  filter_tags_csv : String
deriving DecidableEq

/-- The title-change handler (src/app.py lines 166-176).  `gen` is the
outcome of the `generate_metadata` network call: on success the three
metadata fields are stored; on an exception only a warning is shown.
Either way `last_title` is assigned after the `try` block. -/
def titleChangeStep (s : SessionState) (story_title : String)
    (gen : Except String MetaOut) : SessionState :=
  if pyStrip story_title ≠ "" ∧ story_title ≠ s.last_title then
    match gen with
    | Except.ok md =>
      { last_title := story_title
        meta_description := md.meta_description
        meta_keywords := md.meta_keywords_csv
        generated_filter_tags := md.filter_tags_csv }
    | Except.error _ => { s with last_title := story_title }
  else s

/-- The form fields read by the submit handler (src/app.py
lines 178-217). -/
structure FormData where
  story_title : String
  meta_description : String
  meta_keywords : String
  content_type : String
  language : String
  image_url : String
  tag_input : String
  categories : String
  html_file : Option String

/-- The validation of src/app.py lines 221-230: the consolidated list
of missing required fields, in source order. -/
def missing_fields (f : FormData) : List String :=
  (if pyStrip f.story_title = "" then ["Story Title"] else []) ++
  (if pyStrip f.meta_description = "" then ["Meta Description"] else []) ++
  (if pyStrip f.meta_keywords = "" then ["Meta Keywords"] else []) ++
  (if pyStrip f.content_type = "" then ["Content Type"] else []) ++
  (if pyStrip f.language = "" then ["Language"] else []) ++
  (if pyStrip f.image_url = "" then ["Image URL"] else []) ++
  (if pyStrip f.tag_input = "" then ["Filter Tags"] else []) ++
  (if pyStrip f.categories = "" then ["Category"] else []) ++
  (if f.html_file.isNone then ["Raw HTML File"] else [])

/-- Side effects of the submit handler, in the order the source
attempts them. -/
inductive Effect where
  | slugGen
  | imageFetch
  | s3PutImage
  | templateRead
  | templateCompose
  | s3PutHtml
  | zipBuild
deriving DecidableEq

/-- Effect trace of the submit handler (src/app.py lines 219-433).
In the source, lines 243 onward sit OUTSIDE the `else` branch of the
validation, at the same indentation as `if missing_fields:`, so this
trace is produced whether or not `missing_fields` is empty.  `templateExists`
models whether opening `templates/masterregex.html` succeeds and
`fetchOk` whether the image GET succeeds; an exception inside the outer
`try` aborts the remaining steps of that block. -/
def submitEffects (f : FormData) (templateExists fetchOk : Bool) : List Effect :=
  let imgFx :=
    if f.image_url ≠ "" then
      if f.image_url.startsWith "https://stories.suvichaar.org/" then []
      else if fetchOk then [Effect.imageFetch, Effect.s3PutImage]
      else [Effect.imageFetch]
    else []
  let tmplFx :=
    Effect.templateRead ::
      (if templateExists && (category_mapping.lookup f.categories).isSome then
        [Effect.templateCompose, Effect.s3PutHtml, Effect.zipBuild]
      else [])
  Effect.slugGen :: (imgFx ++ tmplFx)

/-- The fixed literal part of the cleanup pattern
`attr="\x7b(https://[^\x7d]+)\x7d"` of src/app.py lines 341-342:
the attribute name, `="`, an open brace and `https://`. -/
def cleanPat (attr : List Char) : List Char :=
  attr ++ ('=' :: '"' :: '\x7b' :: "https://".toList)

/-- Match attempt of the cleanup pattern at the current position.
The character class `[^\x7d]+` is greedy but cannot cross a close
brace, so the match is the maximal brace-free run followed by a close
brace and a double quote; the returned pair is the captured group
(with its `https://` part) and the remainder of the input after the
match. -/
def tryClean (attr cs : List Char) : Option (List Char × List Char) :=
  if (cleanPat attr).isPrefixOf cs then
    if ((cs.drop (cleanPat attr).length).takeWhile (fun c => c ≠ '\x7d')).isEmpty then none
    else
      match (cs.drop (cleanPat attr).length).drop
          ((cs.drop (cleanPat attr).length).takeWhile (fun c => c ≠ '\x7d')).length with
      | '\x7d' :: '"' :: rest2 =>
        some ("https://".toList ++ (cs.drop (cleanPat attr).length).takeWhile (fun c => c ≠ '\x7d'),
          rest2)
      | _ => none
  else none

/-- `re.sub` for the cleanup pattern: scan left to right, replace each
leftmost non-overlapping match with `attr="` ++ group ++ `"`, resume
after the match.  Fuel-indexed so that the recursion is structural;
the input length is always enough fuel. -/
def subClean (attr : List Char) : Nat → List Char → List Char
  | 0, cs => cs
  | _, [] => []
  | fuel + 1, c :: cs =>
    match tryClean attr (c :: cs) with
    | some (g, rest) => (attr ++ ('=' :: '"' :: g) ++ ['"']) ++ subClean attr fuel rest
    | none => c :: subClean attr fuel cs

/-- One full `re.sub` pass for one attribute. -/
def reSubClean (attr cs : List Char) : List Char :=
  subClean attr cs.length cs

/-- The cleanup pass of src/app.py lines 341-342: the `href` pattern
substitution followed by the `src` pattern substitution. -/
def cleanupL (cs : List Char) : List Char :=
  reSubClean "src".toList (reSubClean "href".toList cs)

/-- String-level cleanup pass. -/
def cleanupUrls (s : String) : String :=
  (cleanupL s.toList).asString

/-- Characters the C4 claim allows in a title: ASCII letters, digits,
space, underscore, hyphen. -/
def allowedTitleChar (c : Char) : Bool :=
  (65 ≤ c.toNat && c.toNat ≤ 90) || (97 ≤ c.toNat && c.toNat ≤ 122) ||
  (48 ≤ c.toNat && c.toNat ≤ 57) || c.toNat = 32 || c.toNat = 95 || c.toNat = 45

/-- A submission with every field filled except the Image URL. -/
def formMissingImage : FormData :=
  { story_title := "Test Story"
    meta_description := "A description"
    meta_keywords := "k1, k2"
    content_type := "News"
    language := "en-US"
    image_url := ""
    tag_input := "t1, t2"
    categories := "Art"
    html_file := some "<html></html>" }

/-- Claim C1, evaluated at the failing input: with a blank Image URL the
consolidated error does list "Image URL", but the handler still goes on
to run slug generation, template composition and the object-store write
of the HTML document, because src/app.py lines 243-433 sit outside the
`else` branch of the validation at lines 232-241. -/
theorem submit_missing_image_url_still_uploads :
    missing_fields formMissingImage = ["Image URL"] ∧
    Effect.slugGen ∈ submitEffects formMissingImage true true ∧
    Effect.templateCompose ∈ submitEffects formMissingImage true true ∧
    Effect.s3PutHtml ∈ submitEffects formMissingImage true true := by
  decide

/-- Claim C2, evaluated at concrete inputs: the fenced shape is handled,
but for non-empty input without a fenced block (an object embedded in
prose, or plain text) the second `re.search` of src/app.py line 85 fails
to compile its `(?1)` pattern under the `re` module, so the call raises
instead of returning the object or the stripped text. -/
theorem extract_json_block_raises_without_fence :
    extract_json_block "```json\n\x7b\"a\": 1\x7d\n```" = Except.ok "\x7b\"a\": 1\x7d" ∧
    extract_json_block "Here: \x7b\"a\": 1\x7d end" =
      Except.error (PyError.reError "unknown extension ?1") ∧
    extract_json_block "plain text" =
      Except.error (PyError.reError "unknown extension ?1") := by
  exact ⟨rfl, rfl, rfl⟩

/-- Claim C3 counterexample: at title "test" with random draw
"abcdefghij", the produced suffix is "abcdefghij_G", whose length is 12,
not 11 - `random.choices(..., k=10)` contributes 10 characters and the
appended literal marker `"_G"` contributes two more. -/
theorem nano_suffix_length_cex :
    generate_slug_and_urls "test" "abcdefghij".toList =
      Except.ok ("abcdefghij_G", "test_abcdefghij_G",
        "https://suvichaar.org/stories/test_abcdefghij_G",
        "https://stories.suvichaar.org/test_abcdefghij_G.html") ∧
    ¬ (("abcdefghij_G" : String).length = 11) := by
  exact ⟨rfl, by decide⟩

/-- Claim C3 as amended: for every non-empty title the suffix has length
exactly 12 (10 random characters plus the fixed two-character marker
"_G"), and the composite identifier always equals slug ++ "_" ++ suffix. -/
theorem nano_suffix_and_composite (title : String) (rc : List Char)
    (h1 : title ≠ "") (h2 : rc.length = 10) :
    ∃ nano slug_nano url1 url2,
      generate_slug_and_urls title rc = Except.ok (nano, slug_nano, url1, url2) ∧
      nano.length = 12 ∧ slug_nano = slugOf title ++ "_" ++ nano := by
  refine ⟨rc.asString ++ "_G", slugOf title ++ "_" ++ (rc.asString ++ "_G"),
    "https://suvichaar.org/stories/" ++ (slugOf title ++ "_" ++ (rc.asString ++ "_G")),
    "https://stories.suvichaar.org/" ++ (slugOf title ++ "_" ++ (rc.asString ++ "_G")) ++ ".html",
    ?_, ?_, rfl⟩
  · simp [generate_slug_and_urls, h1]
  · rw [String.length_append, List.length_asString, h2]
    decide

/-- Witness for the amended C3 theorem at a concrete input. -/
theorem nano_suffix_and_composite_witness :
    ("test" : String) ≠ "" ∧ ("abcdefghij".toList.length = 10) ∧
    (∃ nano slug_nano url1 url2,
      generate_slug_and_urls "test" "abcdefghij".toList =
        Except.ok (nano, slug_nano, url1, url2) ∧
      nano.length = 12 ∧ slug_nano = slugOf "test" ++ "_" ++ nano) :=
  ⟨by decide, by decide, nano_suffix_and_composite "test" "abcdefghij".toList (by decide) (by decide)⟩

/-- Association-list lookup misses every key that is not in the key
column; this is the `KeyError` behaviour of a Python dict access. -/
theorem lookup_eq_none_of_not_mem_keys (l : List (String × Nat)) (a : String)
    (h : a ∉ l.map Prod.fst) : l.lookup a = none := by
  induction l with
  | nil => rfl
  | cons p t ih =>
    obtain ⟨k, v⟩ := p
    simp only [List.map_cons, List.mem_cons, not_or] at h
    obtain ⟨h1, h2⟩ := h
    simp only [List.lookup, beq_eq_false_iff_ne.mpr h1, ih h2]

/-- Claim C5: the eleven fixed category names map, in order, to the
eleven distinct integers 1..11, every stored value lies in 1..11, and
looking up any name outside the key set yields `none` (a `KeyError` in
the source), never a default value. -/
theorem category_mapping_distinct_and_strict :
    category_mapping.map Prod.fst =
      ["Art", "Travel", "Entertainment", "Literature", "Books", "Sports",
       "History", "Culture", "Wildlife", "Spiritual", "Food"] ∧
    category_mapping.map Prod.snd = [1, 2, 3, 4, 5, 6, 7, 8, 9, 10, 11] ∧
    (category_mapping.map Prod.snd).Nodup ∧
    (∀ p ∈ category_mapping, 1 ≤ p.2 ∧ p.2 ≤ 11) ∧
    (∀ s : String, s ∉ category_mapping.map Prod.fst →
      category_mapping.lookup s = none) := by
  refine ⟨rfl, rfl, by decide, by decide, ?_⟩
  intro s hs
  exact lookup_eq_none_of_not_mem_keys _ _ hs

/-- Witness for C5 at the concrete unmapped name "Music". -/
theorem category_mapping_distinct_and_strict_witness :
    ("Music" ∉ category_mapping.map Prod.fst) ∧
    category_mapping.lookup "Music" = none :=
  ⟨by decide, category_mapping_distinct_and_strict.2.2.2.2 "Music" (by decide)⟩

/-- Claim C8: on a successful publish the archive holds exactly the two
entries named slug_nano.html and slug_nano_metadata.json, and the
metadata record has exactly the thirteen documented keys, with
`categories` the looked-up category integer, `publisher_id` the
constant 1 and `story_logo_link` the constant logo URL. -/
theorem archive_and_metadata_shape (catName : String) (filternumber : Nat)
    (hcat : category_mapping.lookup catName = some filternumber)
    (story_title : String) (filter_tags_list : List String)
    (nano canurl canurl1 slug_nano cover_image_url meta_keywords
     meta_description language html_out json_str : String) :
    (zipEntries slug_nano html_out json_str).map Prod.fst =
      [slug_nano ++ ".html", slug_nano ++ "_metadata.json"] ∧
    (metadata_dict story_title filternumber filter_tags_list nano canurl canurl1
        slug_nano cover_image_url meta_keywords meta_description language).map Prod.fst =
      ["story_title", "categories", "filterTags", "story_uid", "story_link",
       "storyhtmlurl", "urlslug", "cover_image_link", "publisher_id",
       "story_logo_link", "keywords", "metadescription", "lang"] ∧
    (metadata_dict story_title filternumber filter_tags_list nano canurl canurl1
        slug_nano cover_image_url meta_keywords meta_description language).lookup "categories" =
      some (JVal.jnum filternumber) ∧
    (metadata_dict story_title filternumber filter_tags_list nano canurl canurl1
        slug_nano cover_image_url meta_keywords meta_description language).lookup "publisher_id" =
      some (JVal.jnum 1) ∧
    (metadata_dict story_title filternumber filter_tags_list nano canurl canurl1
        slug_nano cover_image_url meta_keywords meta_description language).lookup "story_logo_link" =
      some (JVal.jstr "https://media.suvichaar.org/filters:resize/96x96/media/brandasset/suvichaariconblack.png") ∧
    (metadata_dict story_title filternumber filter_tags_list nano canurl canurl1
        slug_nano cover_image_url meta_keywords meta_description language).lookup "filterTags" =
      some (JVal.jarr filter_tags_list) := by
  refine ⟨rfl, rfl, ?_, ?_, ?_, ?_⟩ <;> simp [metadata_dict, List.lookup]

/-- Witness for C8 with the category "Art" and short field values. -/
theorem archive_and_metadata_shape_witness :
    category_mapping.lookup "Art" = some 1 ∧
    ((zipEntries "s_n" "<html>" "m").map Prod.fst = ["s_n" ++ ".html", "s_n" ++ "_metadata.json"] ∧
     (metadata_dict "t" 1 ["tag"] "n" "c" "c1" "s_n" "cov" "kw" "md" "en-US").map Prod.fst =
       ["story_title", "categories", "filterTags", "story_uid", "story_link",
        "storyhtmlurl", "urlslug", "cover_image_link", "publisher_id",
        "story_logo_link", "keywords", "metadescription", "lang"] ∧
     (metadata_dict "t" 1 ["tag"] "n" "c" "c1" "s_n" "cov" "kw" "md" "en-US").lookup "categories" =
       some (JVal.jnum 1) ∧
     (metadata_dict "t" 1 ["tag"] "n" "c" "c1" "s_n" "cov" "kw" "md" "en-US").lookup "publisher_id" =
       some (JVal.jnum 1) ∧
     (metadata_dict "t" 1 ["tag"] "n" "c" "c1" "s_n" "cov" "kw" "md" "en-US").lookup "story_logo_link" =
       some (JVal.jstr "https://media.suvichaar.org/filters:resize/96x96/media/brandasset/suvichaariconblack.png") ∧
     (metadata_dict "t" 1 ["tag"] "n" "c" "c1" "s_n" "cov" "kw" "md" "en-US").lookup "filterTags" =
       some (JVal.jarr ["tag"])) :=
  ⟨by decide, archive_and_metadata_shape "Art" 1 (by decide) "t" ["tag"] "n" "c" "c1" "s_n" "cov" "kw" "md" "en-US" "<html>" "m"⟩

/-- Claim C9: when metadata generation raises for a newly entered
title, the session still records the new title as last seen (so an
immediately repeated entry of the same title is a no-op), while the
three stored metadata fields keep their previous values. -/
theorem metadata_failure_keeps_fields (s : SessionState) (t msg : String)
    (gen2 : Except String MetaOut)
    (h1 : pyStrip t ≠ "") (h2 : t ≠ s.last_title) :
    (titleChangeStep s t (Except.error msg)).last_title = t ∧
    (titleChangeStep s t (Except.error msg)).meta_description = s.meta_description ∧
    (titleChangeStep s t (Except.error msg)).meta_keywords = s.meta_keywords ∧
    (titleChangeStep s t (Except.error msg)).generated_filter_tags = s.generated_filter_tags ∧
    titleChangeStep (titleChangeStep s t (Except.error msg)) t gen2 =
      titleChangeStep s t (Except.error msg) := by
  have e1 : titleChangeStep s t (Except.error msg) = { s with last_title := t } := by
    rw [titleChangeStep.eq_def, if_pos ⟨h1, h2⟩]
  refine ⟨by rw [e1], by rw [e1], by rw [e1], by rw [e1], ?_⟩
  rw [e1, titleChangeStep.eq_def]
  simp

/-- Witness for C9 at a concrete session state and title. -/
theorem metadata_failure_keeps_fields_witness :
    (pyStrip "New Title" ≠ "") ∧ ("New Title" ≠ ("old" : String)) ∧
    ((titleChangeStep ⟨"old", "d0", "k0", "f0"⟩ "New Title" (Except.error "boom")).last_title = "New Title" ∧
     (titleChangeStep ⟨"old", "d0", "k0", "f0"⟩ "New Title" (Except.error "boom")).meta_description = "d0" ∧
     (titleChangeStep ⟨"old", "d0", "k0", "f0"⟩ "New Title" (Except.error "boom")).meta_keywords = "k0" ∧
     (titleChangeStep ⟨"old", "d0", "k0", "f0"⟩ "New Title" (Except.error "boom")).generated_filter_tags = "f0" ∧
     titleChangeStep (titleChangeStep ⟨"old", "d0", "k0", "f0"⟩ "New Title" (Except.error "boom")) "New Title" (Except.error "again") =
       titleChangeStep ⟨"old", "d0", "k0", "f0"⟩ "New Title" (Except.error "boom")) :=
  ⟨by decide, by decide,
   metadata_failure_keeps_fields ⟨"old", "d0", "k0", "f0"⟩ "New Title" "boom"
     (Except.error "again") (by decide) (by decide)⟩

/-- Claim C10: when both tag literals occur but the end of the last
closing occurrence lies at or before the first opening occurrence, the
slice `raw[start : end + len(close)]` is empty, the missing-block
warning branch (the `else` of src/app.py line 361) is not taken, and
the splice step inserts nothing and raises no warning either, because
the insertion block is guarded by `if extracted_amp_story:`. -/
theorem degenerate_amp_span (raw tmpl : List Char) (i j : Nat)
    (hf : pyFind ampOpenLit raw = some i)
    (hr : pyRFind ampCloseLit raw = some j)
    (hij : j + ampCloseLit.length ≤ i) :
    extractAmpStory raw = ([], false) ∧ spliceAmpStory tmpl [] = (tmpl, false) := by
  constructor
  · have hnil : (raw.take (j + ampCloseLit.length)).drop i = [] := by
      refine List.drop_eq_nil_of_le ?_
      rw [List.length_take]
      exact le_trans (min_le_left _ _) hij
    simp [extractAmpStory, hf, hr, hnil]
  · simp [spliceAmpStory]

/-- Witness for C10: the closing literal occurs only at index 0 and the
opening literal only at index 19, so the span is degenerate. -/
theorem degenerate_amp_span_witness :
    pyFind ampOpenLit "</amp-story-page>xx<amp-story-page".toList = some 19 ∧
    pyRFind ampCloseLit "</amp-story-page>xx<amp-story-page".toList = some 0 ∧
    0 + ampCloseLit.length ≤ 19 ∧
    (extractAmpStory "</amp-story-page>xx<amp-story-page".toList = ([], false) ∧
     spliceAmpStory "<x>".toList [] = ("<x>".toList, false)) :=
  ⟨by decide, by decide, by decide,
   degenerate_amp_span "</amp-story-page>xx<amp-story-page".toList "<x>".toList 19 0
     (by decide) (by decide) (by decide)⟩

/-- Membership in the occurrence-index list is exactly occurrence of
the needle at that index (for a non-empty needle). -/
theorem mem_occIdx {nd hay : List Char} (hnd : nd ≠ []) {i : Nat} :
    i ∈ occIdx nd hay ↔ nd <+: hay.drop i := by
  rw [occIdx, List.mem_filter, List.mem_range]
  constructor
  · intro h
    exact List.isPrefixOf_iff_prefix.mp h.2
  · intro h
    refine ⟨?_, List.isPrefixOf_iff_prefix.mpr h⟩
    by_contra hlt
    push_neg at hlt
    have hdrop : hay.drop i = [] := List.drop_eq_nil_of_le (by omega)
    rw [hdrop] at h
    exact hnd (List.prefix_nil.mp h)

/-- The occurrence indices are listed in strictly increasing order. -/
theorem occIdx_pairwise (nd hay : List Char) : (occIdx nd hay).Pairwise (· < ·) :=
  (List.pairwise_lt_range _).filter _

/-- The head of a strictly increasing list is its minimum. -/
theorem head?_min_of_pairwise {l : List Nat} (hp : l.Pairwise (· < ·)) {a : Nat}
    (ha : l.head? = some a) : ∀ b ∈ l, a ≤ b := by
  cases l with
  | nil => cases ha
  | cons x t =>
    injection ha with ha
    subst ha
    intro b hb
    rcases List.mem_cons.mp hb with rfl | hbt
    · exact le_refl _
    · exact le_of_lt ((List.pairwise_cons.mp hp).1 b hbt)

/-- The last element of a strictly increasing list is its maximum. -/
theorem getLast?_max_of_pairwise {l : List Nat} (hp : l.Pairwise (· < ·)) {a : Nat}
    (ha : l.getLast? = some a) : ∀ b ∈ l, b ≤ a := by
  induction l with
  | nil => cases ha
  | cons x t ih =>
    cases t with
    | nil =>
      simp only [List.getLast?_singleton, Option.some.injEq] at ha
      subst ha
      intro b hb
      rcases List.mem_cons.mp hb with rfl | hbt
      · exact le_refl _
      · cases hbt
    | cons y u =>
      rw [List.getLast?_cons_cons] at ha
      have hp2 := (List.pairwise_cons.mp hp).2
      intro b hb
      rcases List.mem_cons.mp hb with rfl | hbt
      · have hmem : a ∈ y :: u := by
          obtain ⟨hne, heq⟩ := List.mem_getLast?_eq_getLast (Option.mem_def.mpr ha)
          exact heq ▸ List.getLast_mem hne
        exact le_of_lt ((List.pairwise_cons.mp hp).1 a hmem)
      · exact ih hp2 ha b hbt

/-- A witnessed occurrence makes the occurrence-index list non-empty. -/
theorem occIdx_ne_nil {nd hay : List Char} (hnd : nd ≠ [])
    (hex : ∃ i, nd <+: hay.drop i) : occIdx nd hay ≠ [] := by
  obtain ⟨i, hi⟩ := hex
  exact List.ne_nil_of_mem ((mem_occIdx hnd).mpr hi)

/-- Claim C7: whenever both tag literals occur in the uploaded raw
HTML, the extracted story-page fragment is exactly the slice of the
document from the first occurrence of the opening literal to the end of
the last occurrence of the closing literal, inclusive; `str.find`
returns the least occurrence index and `str.rfind` the greatest. -/
theorem amp_story_fragment_is_first_to_last_span (raw : List Char)
    (h1 : ∃ i, ampOpenLit <+: raw.drop i) (h2 : ∃ j, ampCloseLit <+: raw.drop j) :
    ∃ i j, (ampOpenLit <+: raw.drop i) ∧ (∀ k, ampOpenLit <+: raw.drop k → i ≤ k) ∧
      (ampCloseLit <+: raw.drop j) ∧ (∀ k, ampCloseLit <+: raw.drop k → k ≤ j) ∧
      extractAmpStory raw = ((raw.take (j + ampCloseLit.length)).drop i, false) := by
  have hndO : ampOpenLit ≠ [] := by decide
  have hndC : ampCloseLit ≠ [] := by decide
  obtain ⟨i, hi⟩ : ∃ i, pyFind ampOpenLit raw = some i := by
    have hne := occIdx_ne_nil hndO h1
    cases ho : occIdx ampOpenLit raw with
    | nil => exact absurd ho hne
    | cons x t => exact ⟨x, by rw [pyFind, ho]; rfl⟩
  obtain ⟨j, hj⟩ : ∃ j, pyRFind ampCloseLit raw = some j := by
    have hne := occIdx_ne_nil hndC h2
    cases ho : occIdx ampCloseLit raw with
    | nil => exact absurd ho hne
    | cons x t =>
      rcases @List.getLast?_eq_getLast_of_ne_nil Nat (x :: t) (by simp) with heq
      exact ⟨(x :: t).getLast (by simp), by rw [pyRFind, ho, heq]⟩
  have hiMem : i ∈ occIdx ampOpenLit raw := by
    cases ho : occIdx ampOpenLit raw with
    | nil => rw [pyFind, ho] at hi; cases hi
    | cons x t =>
      rw [pyFind, ho] at hi
      injection hi with hi
      rw [hi]at ho ⊢
      exact List.mem_cons_self _ _
  have hjMem : j ∈ occIdx ampCloseLit raw := by
    have := List.mem_getLast?_eq_getLast (Option.mem_def.mpr hj)
    obtain ⟨hne, heq⟩ := this
    exact heq ▸ List.getLast_mem hne
  refine ⟨i, j, (mem_occIdx hndO).mp hiMem, ?_, (mem_occIdx hndC).mp hjMem, ?_, ?_⟩
  · intro k hk
    exact head?_min_of_pairwise (occIdx_pairwise _ _) hi k ((mem_occIdx hndO).mpr hk)
  · intro k hk
    exact getLast?_max_of_pairwise (occIdx_pairwise _ _) hj k ((mem_occIdx hndC).mpr hk)
  · simp [extractAmpStory, hi, hj]

/-- Witness for C7 at a small concrete document. -/
theorem amp_story_fragment_witness :
    (∃ i, ampOpenLit <+: ("a<amp-story-page x>b</amp-story-page>c".toList).drop i) ∧
    (∃ j, ampCloseLit <+: ("a<amp-story-page x>b</amp-story-page>c".toList).drop j) ∧
    (∃ i j, (ampOpenLit <+: ("a<amp-story-page x>b</amp-story-page>c".toList).drop i) ∧
      (∀ k, ampOpenLit <+: ("a<amp-story-page x>b</amp-story-page>c".toList).drop k → i ≤ k) ∧
      (ampCloseLit <+: ("a<amp-story-page x>b</amp-story-page>c".toList).drop j) ∧
      (∀ k, ampCloseLit <+: ("a<amp-story-page x>b</amp-story-page>c".toList).drop k → k ≤ j) ∧
      extractAmpStory "a<amp-story-page x>b</amp-story-page>c".toList =
        ((("a<amp-story-page x>b</amp-story-page>c".toList).take (j + ampCloseLit.length)).drop i, false)) :=
  ⟨⟨1, List.isPrefixOf_iff_prefix.mp (by decide)⟩,
   ⟨20, List.isPrefixOf_iff_prefix.mp (by decide)⟩,
   amp_story_fragment_is_first_to_last_span _
     ⟨1, List.isPrefixOf_iff_prefix.mp (by decide)⟩
     ⟨20, List.isPrefixOf_iff_prefix.mp (by decide)⟩⟩

/-- The first element surviving a dropWhile falsifies the predicate. -/
theorem head?_dropWhile_false {p : Char → Bool} {l : List Char} {a : Char}
    (h : (l.dropWhile p).head? = some a) : p a = false := by
  induction l with
  | nil => cases h
  | cons x t ih =>
    by_cases hx : p x = true
    · rw [List.dropWhile_cons_of_pos hx] at h
      exact ih h
    · rw [List.dropWhile_cons_of_neg hx] at h
      injection h with h
      subst h
      exact Bool.not_eq_true _ ▸ (by simpa using hx)

/-- dropWhile is the identity when the head already falsifies the
predicate. -/
theorem dropWhile_eq_self_of_head? {p : Char → Bool} {l : List Char}
    (h : ∀ a, l.head? = some a → p a = false) : l.dropWhile p = l := by
  cases l with
  | nil => rfl
  | cons x t =>
    have hx := h x rfl
    rw [List.dropWhile_cons_of_neg (by rw [hx]; exact Bool.false_ne_true)]

/-- A non-empty suffix determines the last element of the whole list. -/
theorem getLast?_of_suffix_ne_nil {l₁ l₂ : List Char} (h : l₁ <:+ l₂) (hne : l₁ ≠ []) :
    l₂.getLast? = l₁.getLast? := by
  obtain ⟨t, rfl⟩ := h
  rw [List.getLast?_append]
  cases hl : l₁.getLast? with
  | none => exact absurd (List.getLast?_eq_none_iff.mp hl) hne
  | some a => rfl

/-- Characters already in slug alphabet are fixed by the
lowercase-and-replace map. -/
theorem slugMapChar_allowed {c : Char} (h : allowedSlugChar c = true) : slugMapChar c = c := by
  rw [allowedSlugChar] at h
  simp only [Bool.or_eq_true, Bool.and_eq_true, decide_eq_true_eq] at h
  have hlow : pyLowerChar c = c := by
    rw [pyLowerChar, if_neg (by omega)]
  rw [slugMapChar, hlow, if_neg]
  simp only [Bool.or_eq_true, decide_eq_true_eq]
  omega

/-- Stripping edge hyphens only removes characters. -/
theorem mem_of_mem_stripHyphens {c : Char} {l : List Char} (h : c ∈ stripHyphens l) : c ∈ l := by
  rw [stripHyphens] at h
  have h1 := (List.dropWhile_sublist _).subset h
  rw [List.mem_reverse] at h1
  have h2 := (List.dropWhile_sublist _).subset h1
  rw [List.mem_reverse] at h2
  exact h2

/-- Stripping edge hyphens is the identity when neither end carries a
hyphen. -/
theorem stripHyphens_of_clean {l : List Char}
    (h1 : ∀ a, l.head? = some a → (a == '-') = false)
    (h2 : ∀ a, l.getLast? = some a → (a == '-') = false) :
    stripHyphens l = l := by
  rw [stripHyphens]
  have e1 : l.reverse.dropWhile (fun c => c == '-') = l.reverse := by
    apply dropWhile_eq_self_of_head?
    intro a ha
    rw [List.head?_reverse] at ha
    exact h2 a ha
  rw [e1, List.reverse_reverse]
  exact dropWhile_eq_self_of_head? h1

/-- Every character of a slug is in the slug alphabet. -/
theorem slugCore_allowed {cs : List Char} : ∀ c ∈ slugCore cs, allowedSlugChar c = true := by
  intro c hc
  rw [slugCore] at hc
  exact (List.mem_filter.mp (mem_of_mem_stripHyphens hc)).2

/-- A slug never starts with a hyphen. -/
theorem slugCore_head {cs : List Char} {a : Char}
    (h : (slugCore cs).head? = some a) : (a == '-') = false := by
  rw [slugCore, stripHyphens] at h
  exact @head?_dropWhile_false (fun c => c == '-') _ a h

/-- A slug never ends with a hyphen. -/
theorem slugCore_last {cs : List Char} {a : Char}
    (h : (slugCore cs).getLast? = some a) : (a == '-') = false := by
  rw [slugCore, stripHyphens] at h
  generalize hX : (cs.map slugMapChar).filter allowedSlugChar = X at h
  have hne : (X.reverse.dropWhile (fun c => c == '-')).reverse.dropWhile (fun c => c == '-') ≠ [] := by
    intro hnil
    rw [hnil] at h
    cases h
  have hsuf : (X.reverse.dropWhile (fun c => c == '-')).reverse.dropWhile (fun c => c == '-') <:+
      (X.reverse.dropWhile (fun c => c == '-')).reverse :=
    List.dropWhile_suffix _
  have heq := getLast?_of_suffix_ne_nil hsuf hne
  rw [← heq, List.getLast?_reverse] at h
  exact @head?_dropWhile_false (fun c => c == '-') _ a h

/-- The slug normalization is idempotent on character lists. -/
theorem slugCore_idem (cs : List Char) : slugCore (slugCore cs) = slugCore cs := by
  have e1 : (slugCore cs).map slugMapChar = slugCore cs := by
    have e : (slugCore cs).map slugMapChar = (slugCore cs).map id :=
      List.map_congr_left (fun a ha => slugMapChar_allowed (slugCore_allowed a ha))
    rw [e, List.map_id]
  have e2 : (slugCore cs).filter allowedSlugChar = slugCore cs :=
    List.filter_eq_self.mpr slugCore_allowed
  conv_lhs => rw [slugCore]
  rw [e1, e2]
  exact stripHyphens_of_clean (fun a ha => slugCore_head ha) (fun a ha => slugCore_last ha)

/-- Claim C4: for a title over letters, digits, spaces, underscores and
hyphens, the slug uses only a-z, 0-9 and hyphen, has no edge hyphen,
and renormalizing the slug returns it unchanged. -/
theorem slug_charset_edges_idempotent (title : String)
    (h : ∀ c ∈ title.toList, allowedTitleChar c = true) :
    (∀ c ∈ (slugOf title).toList, allowedSlugChar c = true) ∧
    (∀ a, (slugOf title).toList.head? = some a → a ≠ '-') ∧
    (∀ a, (slugOf title).toList.getLast? = some a → a ≠ '-') ∧
    slugOf (slugOf title) = slugOf title := by
  have elist : (slugOf title).toList = slugCore title.toList := rfl
  refine ⟨?_, ?_, ?_, ?_⟩
  · rw [elist]; exact slugCore_allowed
  · rw [elist]
    intro a ha hcontra
    rw [hcontra] at ha
    have := slugCore_head ha
    simp at this
  · rw [elist]
    intro a ha hcontra
    rw [hcontra] at ha
    have := slugCore_last ha
    simp at this
  · rw [slugOf, slugOf, List.toList_asString, slugCore_idem]

/-- Witness for C4 at the concrete title "Test Story". -/
theorem slug_charset_edges_idempotent_witness :
    (∀ c ∈ ("Test Story" : String).toList, allowedTitleChar c = true) ∧
    ((∀ c ∈ (slugOf "Test Story").toList, allowedSlugChar c = true) ∧
     (∀ a, (slugOf "Test Story").toList.head? = some a → a ≠ '-') ∧
     (∀ a, (slugOf "Test Story").toList.getLast? = some a → a ≠ '-') ∧
     slugOf (slugOf "Test Story") = slugOf "Test Story") :=
  ⟨by decide, slug_charset_edges_idempotent "Test Story" (by decide)⟩

/-- The substitution scan of the empty input is empty. -/
theorem subClean_nil (attr : List Char) (fuel : Nat) : subClean attr fuel [] = [] := by
  cases fuel <;> rfl

/-- With no fuel the scan returns its input. -/
theorem subClean_zero (attr : List Char) (cs : List Char) : subClean attr 0 cs = cs := by
  cases cs <;> rfl

/-- A scan over an input in which no position matches is the identity. -/
theorem subClean_id_of_no_match (attr : List Char) (fuel : Nat) (cs : List Char)
    (h : ∀ n, tryClean attr (cs.drop n) = none) : subClean attr fuel cs = cs := by
  induction fuel generalizing cs with
  | zero => exact subClean_zero attr cs
  | succ m ih =>
    cases cs with
    | nil => rfl
    | cons c t =>
      have h0 := h 0
      rw [List.drop_zero] at h0
      simp only [subClean, h0]
      refine congrArg (List.cons c) (ih t (fun n => ?_))
      have hn := h (n + 1)
      rwa [List.drop_succ_cons] at hn

/-- Inside the span of a prefix, indexing agrees with the larger list. -/
theorem prefix_getElem? {l₁ l₂ : List Char} (h : l₁ <+: l₂) {k : Nat} (hk : k < l₁.length) :
    l₂[k]? = l₁[k]? := by
  rw [List.prefix_iff_eq_take] at h
  conv_rhs => rw [h]
  rw [List.getElem?_take, if_pos hk]

/-- The literal part of the cleanup pattern adds 11 characters to the
attribute name. -/
theorem cleanPat_length (attr : List Char) : (cleanPat attr).length = attr.length + 11 := by
  have h8 : ("https://".toList).length = 8 := rfl
  simp [cleanPat, h8]

/-- The cleanup pattern carries a double quote right after the equals
sign. -/
theorem cleanPat_quote (attr : List Char) :
    (cleanPat attr)[attr.length + 1]? = some '"' := by
  rw [cleanPat, List.getElem?_append_right (by omega)]
  have h : attr.length + 1 - attr.length = 1 := by omega
  rw [h]
  rfl

/-- The cleanup pattern carries an open brace right after the quote. -/
theorem cleanPat_brace (attr : List Char) :
    (cleanPat attr)[attr.length + 2]? = some '\x7b' := by
  rw [cleanPat, List.getElem?_append_right (by omega)]
  have h : attr.length + 2 - attr.length = 2 := by omega
  rw [h]
  rfl

/-- If every quote-then-open-brace pair of the text sits too close to
the start for the attribute name to fit before it, the cleanup pattern
matches nowhere. -/
theorem tryClean_none_of_pairs_low (attr s : List Char)
    (hs : ∀ m, s[m]? = some '"' → s[m + 1]? = some '\x7b' → m < attr.length + 1)
    (n : Nat) : tryClean attr (s.drop n) = none := by
  have hnp : ¬ ((cleanPat attr).isPrefixOf (s.drop n) = true) := by
    intro hpre
    rw [List.isPrefixOf_iff_prefix] at hpre
    have hq : (s.drop n)[attr.length + 1]? = (cleanPat attr)[attr.length + 1]? :=
      prefix_getElem? hpre (by rw [cleanPat_length]; omega)
    have hb : (s.drop n)[attr.length + 2]? = (cleanPat attr)[attr.length + 2]? :=
      prefix_getElem? hpre (by rw [cleanPat_length]; omega)
    rw [cleanPat_quote, List.getElem?_drop] at hq
    rw [cleanPat_brace, List.getElem?_drop] at hb
    have hb2 : s[(n + (attr.length + 1)) + 1]? = some '\x7b' := by
      rw [show (n + (attr.length + 1) + 1) = n + (attr.length + 2) from by omega]
      exact hb
    have hlt := hs (n + (attr.length + 1)) hq hb2
    omega
  rw [tryClean, if_neg hnp]

/-- Indexing into a three-part append, by region. -/
theorem getElem?_append3 (B u T : List Char) (m : Nat) :
    (B ++ (u ++ T))[m]? =
      if m < B.length then B[m]?
      else if m < B.length + u.length then u[m - B.length]?
      else T[m - B.length - u.length]? := by
  by_cases h1 : m < B.length
  · rw [List.getElem?_append_left h1, if_pos h1]
  · rw [List.getElem?_append_right (by omega), if_neg h1]
    by_cases h2 : m < B.length + u.length
    · rw [List.getElem?_append_left (by omega), if_pos h2]
    · rw [List.getElem?_append_right (by omega), if_neg h2]

/-- A well-formed attribute value (quotes only inside the head, never
followed by an open brace, and at the very end) contains no
quote-then-open-brace pair. -/
theorem no_pair_clean (B u : List Char) (hq : ('"' : Char) ∉ u)
    (hBq : ∀ k, k < B.length → B[k]? = some '"' → (k + 1 < B.length ∧ B[k + 1]? ≠ some '\x7b'))
    (m : Nat) (h1 : (B ++ (u ++ ['"']))[m]? = some '"')
    (h2 : (B ++ (u ++ ['"']))[m + 1]? = some '\x7b') : False := by
  rw [getElem?_append3] at h1 h2
  by_cases c1 : m < B.length
  · rw [if_pos c1] at h1
    obtain ⟨hlt, hne⟩ := hBq m c1 h1
    rw [if_pos (by omega)] at h2
    exact hne h2
  · rw [if_neg c1] at h1
    by_cases c2 : m < B.length + u.length
    · rw [if_pos c2] at h1
      exact hq (List.getElem?_mem h1)
    · rw [if_neg c2] at h1
      have hm : m - B.length - u.length = 0 := by
        by_contra hx
        have hnone : (['"'] : List Char)[m - B.length - u.length]? = none :=
          List.getElem?_eq_none (by simp; omega)
        rw [hnone] at h1
        cases h1
      rw [if_neg (by omega), if_neg (by omega)] at h2
      have hnone : (['"'] : List Char)[m + 1 - B.length - u.length]? = none :=
        List.getElem?_eq_none (by simp; omega)
      rw [hnone] at h2
      cases h2

/-- One substitution pass leaves a well-formed attribute string
unchanged. -/
theorem reSubClean_id_clean (attr B u : List Char) (hq : ('"' : Char) ∉ u)
    (hBq : ∀ k, k < B.length → B[k]? = some '"' → (k + 1 < B.length ∧ B[k + 1]? ≠ some '\x7b')) :
    reSubClean attr (B ++ (u ++ ['"'])) = B ++ (u ++ ['"']) := by
  apply subClean_id_of_no_match
  intro n
  apply tryClean_none_of_pairs_low
  intro m h1 h2
  exact (no_pair_clean B u hq hBq m h1 h2).elim

/-- takeWhile passes over a block whose members all satisfy the
predicate. -/
theorem takeWhile_append_all {p : Char → Bool} {l1 l2 : List Char}
    (h : ∀ c ∈ l1, p c = true) :
    (l1 ++ l2).takeWhile p = l1 ++ l2.takeWhile p := by
  induction l1 with
  | nil => simp
  | cons x t ih =>
    rw [List.cons_append, List.takeWhile_cons_of_pos (h x (List.mem_cons_self _ _)),
      ih (fun c hc => h c (List.mem_cons_of_mem _ hc)), List.cons_append]

/-- The match attempt at a brace-wrapped URL succeeds and captures the
URL. -/
theorem tryClean_full (attr u r : List Char) (hne : u ≠ []) (hb : ('\x7d' : Char) ∉ u) :
    tryClean attr (cleanPat attr ++ (u ++ ('\x7d' :: '"' :: r))) =
      some ("https://".toList ++ u, r) := by
  have hpre : (cleanPat attr).isPrefixOf (cleanPat attr ++ (u ++ ('\x7d' :: '"' :: r))) = true :=
    List.isPrefixOf_iff_prefix.mpr (List.prefix_append _ _)
  have hdrop : (cleanPat attr ++ (u ++ ('\x7d' :: '"' :: r))).drop (cleanPat attr).length =
      u ++ ('\x7d' :: '"' :: r) := List.drop_left _ _
  have hmem : ∀ c ∈ u, (fun c => (c ≠ '\x7d' : Bool)) c = true := by
    intro c hc
    simp only [ne_eq, decide_eq_true_eq]
    intro hcc
    exact hb (hcc ▸ hc)
  have htake : (u ++ ('\x7d' :: '"' :: r)).takeWhile (fun c => (c ≠ '\x7d' : Bool)) = u := by
    rw [takeWhile_append_all hmem, List.takeWhile_cons_of_neg (by simp), List.append_nil]
  have hie : u.isEmpty = false := by
    cases u with
    | nil => exact absurd rfl hne
    | cons a t => rfl
  have hdrop2 : (u ++ ('\x7d' :: '"' :: r)).drop u.length = '\x7d' :: '"' :: r :=
    List.drop_left _ _
  rw [tryClean, if_pos hpre, hdrop, htake, hie, hdrop2]
  rfl

/-- One substitution pass rewrites a string that consists exactly of a
brace-wrapped attribute occurrence. -/
theorem reSubClean_rewrite (attr u : List Char) (hne : u ≠ []) (hb : ('\x7d' : Char) ∉ u) :
    reSubClean attr (cleanPat attr ++ (u ++ ('\x7d' :: '"' :: []))) =
      (attr ++ ('=' :: '"' :: ("https://".toList ++ u))) ++ ['"'] := by
  have hfull := tryClean_full attr u [] hne hb
  cases hcs : cleanPat attr ++ (u ++ ('\x7d' :: '"' :: [])) with
  | nil =>
    exfalso
    have hlen := congrArg List.length hcs
    rw [List.length_append, cleanPat_length] at hlen
    simp at hlen
  | cons c t =>
    rw [reSubClean]
    show subClean attr (t.length + 1) (c :: t) = _
    simp only [subClean]
    rw [← hcs, hfull]
    show (attr ++ ('=' :: '"' :: ("https://".toList ++ u)) ++ ['"']) ++ subClean attr t.length [] = _
    rw [subClean_nil, List.append_nil]

/-- The href open shape, written with string literals, in pattern form. -/
theorem hrefOpen_eq (u : List Char) :
    "href=\"\x7bhttps://".toList ++ (u ++ "\x7d\"".toList) =
      cleanPat "href".toList ++ (u ++ ('\x7d' :: '"' :: [])) := by
  have h1 : "href=\"\x7bhttps://".toList = cleanPat "href".toList := by decide
  have h2 : "\x7d\"".toList = ('\x7d' :: '"' :: []) := by decide
  rw [h1, h2]

/-- The src open shape, written with string literals, in pattern form. -/
theorem srcOpen_eq (u : List Char) :
    "src=\"\x7bhttps://".toList ++ (u ++ "\x7d\"".toList) =
      cleanPat "src".toList ++ (u ++ ('\x7d' :: '"' :: [])) := by
  have h1 : "src=\"\x7bhttps://".toList = cleanPat "src".toList := by decide
  have h2 : "\x7d\"".toList = ('\x7d' :: '"' :: []) := by decide
  rw [h1, h2]

/-- The replacement produced for an href match, in literal form. -/
theorem hrefResult_eq (u : List Char) :
    ("href".toList ++ ('=' :: '"' :: ("https://".toList ++ u))) ++ ['"'] =
      "href=\"https://".toList ++ (u ++ ['"']) := by
  have h1 : "href".toList ++ ('=' :: '"' :: "https://".toList) = "href=\"https://".toList := by
    decide
  rw [show ('=' :: '"' :: ("https://".toList ++ u)) =
        ('=' :: '"' :: "https://".toList) ++ u from rfl,
    ← List.append_assoc, h1, List.append_assoc]

/-- The replacement produced for a src match, in literal form. -/
theorem srcResult_eq (u : List Char) :
    ("src".toList ++ ('=' :: '"' :: ("https://".toList ++ u))) ++ ['"'] =
      "src=\"https://".toList ++ (u ++ ['"']) := by
  have h1 : "src".toList ++ ('=' :: '"' :: "https://".toList) = "src=\"https://".toList := by
    decide
  rw [show ('=' :: '"' :: ("https://".toList ++ u)) =
        ('=' :: '"' :: "https://".toList) ++ u from rfl,
    ← List.append_assoc, h1, List.append_assoc]

/-- In a brace-wrapped src occurrence the only quote-then-brace pair
sits at index 4, too close to the start for `href` to fit before it. -/
theorem pairs_in_srcopen (u : List Char) (hq : ('"' : Char) ∉ u) (m : Nat)
    (h1 : (cleanPat "src".toList ++ (u ++ ('\x7d' :: '"' :: [])))[m]? = some '"')
    (h2 : (cleanPat "src".toList ++ (u ++ ('\x7d' :: '"' :: [])))[m + 1]? = some '\x7b') :
    m = 4 := by
  rw [getElem?_append3] at h1 h2
  have hlen : (cleanPat "src".toList).length = 14 := by decide
  rw [hlen] at h1 h2
  by_cases c1 : m < 14
  · rw [if_pos c1] at h1
    have : ∀ k, k < 14 → ((cleanPat "src".toList)[k]? = some '"' → k = 4) := by decide
    exact this m c1 h1
  · rw [if_neg c1] at h1
    by_cases c2 : m < 14 + u.length
    · rw [if_pos c2] at h1
      exact absurd (List.getElem?_mem h1) hq
    · rw [if_neg c2] at h1
      have hm : m - 14 - u.length = 1 := by
        rcases hx : m - 14 - u.length with _ | k
        · rw [hx] at h1; cases h1
        · rcases k with _ | k2
          · rfl
          · rw [hx] at h1
            have : (('\x7d' :: '"' :: []) : List Char)[k2 + 2]? = none :=
              List.getElem?_eq_none (by simp)
            rw [this] at h1
            cases h1
      rw [if_neg (by omega), if_neg (by omega)] at h2
      have : (('\x7d' :: '"' :: []) : List Char)[m + 1 - 14 - u.length]? = none :=
        List.getElem?_eq_none (by simp; omega)
      rw [this] at h2
      cases h2

/-- Claim C6 as amended: the cleanup pass rewrites a brace-wrapped
occurrence href="\x7bhttps://x\x7d" (x non-empty, free of close braces
and double quotes) to href="https://x", likewise for src, and it leaves
a correctly formed href="https://x" or src="https://x" unchanged.  The
idempotence part of the original claim is refuted separately. -/
theorem cleanup_rewrites_and_preserves (u : List Char)
    (hne : u ≠ []) (hb : ('\x7d' : Char) ∉ u) (hq : ('"' : Char) ∉ u) :
    cleanupL ("href=\"\x7bhttps://".toList ++ (u ++ "\x7d\"".toList)) =
      "href=\"https://".toList ++ (u ++ "\"".toList) ∧
    cleanupL ("src=\"\x7bhttps://".toList ++ (u ++ "\x7d\"".toList)) =
      "src=\"https://".toList ++ (u ++ "\"".toList) ∧
    cleanupL ("href=\"https://".toList ++ (u ++ "\"".toList)) =
      "href=\"https://".toList ++ (u ++ "\"".toList) ∧
    cleanupL ("src=\"https://".toList ++ (u ++ "\"".toList)) =
      "src=\"https://".toList ++ (u ++ "\"".toList) := by
  have hQ : ("\"" : String).toList = ['"'] := by decide
  have hBhref : ∀ k, k < ("href=\"https://".toList).length →
      ("href=\"https://".toList)[k]? = some '"' →
      (k + 1 < ("href=\"https://".toList).length ∧
       ("href=\"https://".toList)[k + 1]? ≠ some '\x7b') := by decide
  have hBsrc : ∀ k, k < ("src=\"https://".toList).length →
      ("src=\"https://".toList)[k]? = some '"' →
      (k + 1 < ("src=\"https://".toList).length ∧
       ("src=\"https://".toList)[k + 1]? ≠ some '\x7b') := by decide
  refine ⟨?_, ?_, ?_, ?_⟩
  · rw [hQ, hrefOpen_eq, cleanupL, reSubClean_rewrite _ _ hne hb, hrefResult_eq]
    exact reSubClean_id_clean _ _ u hq hBhref
  · rw [hQ, srcOpen_eq, cleanupL]
    have hid : reSubClean "href".toList (cleanPat "src".toList ++ (u ++ ('\x7d' :: '"' :: []))) =
        cleanPat "src".toList ++ (u ++ ('\x7d' :: '"' :: [])) := by
      apply subClean_id_of_no_match
      intro n
      apply tryClean_none_of_pairs_low
      intro m h1 h2
      have hm := pairs_in_srcopen u hq m h1 h2
      have hlen4 : ("href".toList).length = 4 := by decide
      omega
    rw [hid, reSubClean_rewrite _ _ hne hb, srcResult_eq]
  · rw [hQ, cleanupL, reSubClean_id_clean _ _ u hq hBhref]
    exact reSubClean_id_clean _ _ u hq hBhref
  · rw [hQ, cleanupL, reSubClean_id_clean _ _ u hq hBsrc]
    exact reSubClean_id_clean _ _ u hq hBsrc

/-- Witness for the amended C6 theorem at the URL a.com/img. -/
theorem cleanup_rewrites_and_preserves_witness :
    (("a.com/img" : String).toList ≠ [] ∧
     ('\x7d' : Char) ∉ ("a.com/img" : String).toList ∧
     ('"' : Char) ∉ ("a.com/img" : String).toList) ∧
    (cleanupL ("href=\"\x7bhttps://".toList ++ ("a.com/img".toList ++ "\x7d\"".toList)) =
       "href=\"https://".toList ++ ("a.com/img".toList ++ "\"".toList) ∧
     cleanupL ("src=\"\x7bhttps://".toList ++ ("a.com/img".toList ++ "\x7d\"".toList)) =
       "src=\"https://".toList ++ ("a.com/img".toList ++ "\"".toList) ∧
     cleanupL ("href=\"https://".toList ++ ("a.com/img".toList ++ "\"".toList)) =
       "href=\"https://".toList ++ ("a.com/img".toList ++ "\"".toList) ∧
     cleanupL ("src=\"https://".toList ++ ("a.com/img".toList ++ "\"".toList)) =
       "src=\"https://".toList ++ ("a.com/img".toList ++ "\"".toList)) :=
  ⟨⟨by decide, by decide, by decide⟩,
   cleanup_rewrites_and_preserves "a.com/img".toList (by decide) (by decide) (by decide)⟩

/-- Claim C6 counterexample: the cleanup is not idempotent.  At this
input the single pass rewrites the outer occurrence, and the
replacement text ends in href=", which together with the following
text forms a new brace-wrapped occurrence that only a second pass
rewrites. -/
theorem cleanup_not_idempotent_cex :
    cleanupUrls (cleanupUrls "href=\"\x7bhttps://zhref=\x7d\"\x7bhttps://x\x7d\"") ≠
      cleanupUrls "href=\"\x7bhttps://zhref=\x7d\"\x7bhttps://x\x7d\"" := by
  decide
